import Mathlib

/-!
Verification of the RuneTUI layout engine (measurement, flex distribution,
alignment/justification, and the recursive position assigner).

Modelling conventions:
* Go `int` is modelled as `Int` (unbounded; integer overflow is out of scope,
  see spec §7).  Go integer division truncates toward zero, so every Go `/`
  on possibly-negative operands is modelled with `Int.tdiv`.  (Go panics on
  division by zero while `Int.tdiv _ 0 = 0`; no verified statement depends
  on a division by zero.)
* Go `string` values that are measured are modelled as `List Char`
  (one `Char` per rune): `len(s)` is the UTF-8 byte length
  (`Char.utf8Size` summed) and `utf8.RuneCountInString` is `List.length`.
* Go `float64` flex weights are modelled as exact rationals `ℚ`;
  `int(x)` conversion truncates toward zero.
-/

namespace RuneTUI

/-- Direction of a flex container (types.go). -/
inductive Direction where
  | Column
  | Row
deriving DecidableEq

/-- Dimension: auto, fixed or percentage sizing (types.go).
A Go `nil` Dimension interface value falls into `resolveDimension`'s
default case, exactly like `Auto`, so it is modelled as `Auto`. -/
inductive Dimension where
  | Auto
  | Fixed (value : Int)
  | Percent (value : Int)
deriving DecidableEq

/-- Spacing around an element: top/right/bottom/left (types.go). -/
structure Spacing where
  Top : Int
  Right : Int
  Bottom : Int
  Left : Int
deriving DecidableEq

/-- SpacingAll: the same value on all four sides (types.go). -/
def SpacingAll (value : Int) : Spacing :=
  ⟨value, value, value, value⟩

/-- Border styles (types.go). -/
inductive BorderStyle where
  | BorderNone
  | BorderSingle
  | BorderDouble
  | BorderRounded
deriving DecidableEq

/-- Cross-axis alignment (types.go). -/
inductive Align where
  | AlignStart
  | AlignCenter
  | AlignEnd
  | AlignStretch
deriving DecidableEq

/-- Main-axis justification (types.go). -/
inductive Justify where
  | JustifyStart
  | JustifyCenter
  | JustifyEnd
  | JustifySpaceBetween
  | JustifySpaceAround
deriving DecidableEq

/-- Text wrap modes (types.go). -/
inductive WrapMode where
  | WrapNone
  | WrapWord
  | WrapChar
  | WrapTruncate
deriving DecidableEq

/-- Horizontal text alignment (types.go); not used by measurement. -/
inductive TextAlign where
  | TextAlignLeft
  | TextAlignCenter
  | TextAlignRight
deriving DecidableEq

/-- A measured size (width/height in cells). -/
structure Size where
  Width : Int
  Height : Int
deriving DecidableEq

/-- A resolved absolute layout rectangle. -/
structure Layout where
  X : Int
  Y : Int
  Width : Int
  Height : Int
deriving DecidableEq

/-- Properties of the Text component (text.go).  Only `Wrap` matters for
measurement; the style fields are carried for fidelity. -/
structure TextProps where
  Content : List Char
  Color : String
  Background : String
  Bold : Bool
  Italic : Bool
  Underline : Bool
  Strikethrough : Bool
  Wrap : WrapMode
  Align : TextAlign
  Key : String
deriving DecidableEq

/-- The zero value of TextProps (all fields at their Go zero values). -/
def TextProps.zero : TextProps :=
  ⟨[], "", "", false, false, false, false, .WrapNone, .TextAlignLeft, ""⟩

/-- Properties of the Box component (box.go).  Flex weights are float64 in
Go, modelled as exact rationals. -/
structure BoxProps where
  Direction : Direction
  Width : Dimension
  Height : Dimension
  MinWidth : Int
  MinHeight : Int
  MaxWidth : Int
  MaxHeight : Int
  FlexGrow : ℚ
  FlexShrink : ℚ
  AlignItems : Align
  JustifyContent : Justify
  Padding : Spacing
  Margin : Spacing
  Gap : Int
  Border : BorderStyle
  BorderColor : String
  Background : String
  IsStatic : Bool
  Key : String

/-- The zero value of BoxProps (all fields at their Go zero values;
a nil `Dimension` behaves like `Auto`, see `Dimension`). -/
def BoxProps.zero : BoxProps :=
  ⟨.Column, .Auto, .Auto, 0, 0, 0, 0, 0, 0, .AlignStart, .JustifyStart,
    ⟨0, 0, 0, 0⟩, ⟨0, 0, 0, 0⟩, 0, .BorderNone, "", "", false, ""⟩

/-- UTF-8 byte length of a Go string: what Go's `len(s)` returns. -/
def byteLen (s : List Char) : Int :=
  (s.map (fun c => (c.utf8Size : Int))).sum

/-- `resolveDimension` (measure.go): resolve a Dimension against an
available extent.  `available * p / 100` is Go integer division, i.e.
truncation toward zero. -/
def resolveDimension (dim : Dimension) (available : Int) : Int :=
  match dim with
  | .Fixed value => value
  | .Percent value => (available * value).tdiv 100
  | .Auto => 0

/-- Go's `strings.Split(s, "\n")`: split a string on newline characters.
The result always has `(number of newlines) + 1` entries. -/
def splitLines : List Char → List (List Char)
  | [] => [[]]
  | c :: rest =>
    if c = '\n' then
      [] :: splitLines rest
    else
      match splitLines rest with
      | [] => [[c]]
      | l :: ls => (c :: l) :: ls

/-- `measureText` (measure.go): size of text from content and wrap mode.
Line widths are rune counts (`utf8.RuneCountInString`). -/
def measureText (content : List Char) (wrap : WrapMode) (availableWidth : Int) : Size :=
  if content = [] then
    ⟨0, 0⟩
  else
    let lines := splitLines content
    let height : Int := lines.length
    let width : Int := lines.foldl (fun w line =>
      if (line.length : Int) > w then (line.length : Int) else w) 0
    if wrap = .WrapNone then
      ⟨width, height⟩
    else if wrap = .WrapTruncate ∧ width > availableWidth then
      ⟨availableWidth, height⟩
    else if (wrap = .WrapWord ∨ wrap = .WrapChar) ∧ width > availableWidth ∧ availableWidth > 0 then
      let totalRunes : Int := (lines.map (fun line => (line.length : Int))).sum
      ⟨availableWidth, (totalRunes + availableWidth - 1).tdiv availableWidth⟩
    else
      ⟨width, height⟩

/-- `(*text).Measure` (text.go): the text component's own measurement.
Note: it uses `len(t.content)` — the BYTE length — and never splits on
newlines; it does not call `measureText`. -/
def textMeasure (content : List Char) (props : TextProps) (availableWidth : Int)
    (_availableHeight : Int) : Size :=
  let width0 : Int := byteLen content
  let wl1 : Int × Int :=
    if props.Wrap = .WrapWord ∧ width0 > availableWidth then
      (availableWidth, (byteLen content + availableWidth - 1).tdiv availableWidth)
    else
      (width0, 1)
  let wl2 : Int × Int :=
    if props.Wrap = .WrapTruncate ∧ wl1.1 > availableWidth then
      (availableWidth, 1)
    else
      wl1
  ⟨wl2.1, wl2.2⟩

/-- `spacingWidth` (measure.go): left + right. -/
def spacingWidth (s : Spacing) : Int :=
  s.Left + s.Right

/-- `spacingHeight` (measure.go): top + bottom. -/
def spacingHeight (s : Spacing) : Int :=
  s.Top + s.Bottom

/-- `borderSize` (measure.go): (width, height) added by a border. -/
def borderSize (style : BorderStyle) : Int × Int :=
  if style = .BorderNone then (0, 0) else (2, 2)

/-- `applyConstraints` (measure.go): min/max clamping; a zero bound is
"unset". -/
def applyConstraints (size : Size) (minWidth minHeight maxWidth maxHeight : Int) : Size :=
  let size := if minWidth > 0 ∧ size.Width < minWidth then { size with Width := minWidth } else size
  let size := if maxWidth > 0 ∧ size.Width > maxWidth then { size with Width := maxWidth } else size
  let size := if minHeight > 0 ∧ size.Height < minHeight then { size with Height := minHeight } else size
  let size := if maxHeight > 0 ∧ size.Height > maxHeight then { size with Height := maxHeight } else size
  size

/-- The component tree.  `text` and `box` are the repository's own
components (Spacer and FlexSpacer are boxes, see spacer.go); `custom`
models any other implementation of the open Go `Component` interface by
its pure `Measure` function and its `Children()` list. -/
inductive Component where
  | text (content : List Char) (props : TextProps)
  | box (props : BoxProps) (children : List Component)
  | custom (measure : Int → Int → Size) (children : List Component) (key : String)

/-- `Children()` of a component: only boxes and custom components have
children; text leaves return an empty slice (text.go). -/
def Component.ChildrenOf : Component → List Component
  | .text _ _ => []
  | .box _ children => children
  | .custom _ children _ => children

/-- Accumulator of `measureBox`'s child-walking loop (measure.go):
`totalWidth`, `totalHeight`, `maxWidth`, `maxHeight`. -/
structure BoxAcc where
  totalWidth : Int
  totalHeight : Int
  maxWidth : Int
  maxHeight : Int
deriving DecidableEq

mutual

/-- `Component.Measure`: dispatches to the text component's own
measurement, to `measureBox` for boxes, and to the custom measurer. -/
def Component.Measure (c : Component) (availableWidth availableHeight : Int) : Size :=
  match c with
  | .text content props =>
      textMeasure content props availableWidth availableHeight
  | .box props children =>
      measureBox props children availableWidth availableHeight
  | .custom measure _ _ =>
      measure availableWidth availableHeight
termination_by (sizeOf c, 0)

/-- `measureBox` (measure.go): size of a box including its children. -/
def measureBox (props : BoxProps) (children : List Component)
    (availableWidth availableHeight : Int) : Size :=
  match children with
  | [] => ⟨0, 0⟩
  | c0 :: rest =>
    let acc := measureBoxChildren props (c0 :: rest) availableWidth availableHeight 0 ⟨0, 0, 0, 0⟩
    let wh : Int × Int :=
      match props.Direction with
      | .Row => (acc.totalWidth, acc.maxHeight)
      | .Column => (acc.maxWidth, acc.totalHeight)
    let width := wh.1 + spacingWidth props.Padding + spacingWidth props.Margin
      + (borderSize props.Border).1
    let height := wh.2 + spacingHeight props.Padding + spacingHeight props.Margin
      + (borderSize props.Border).2
    let resolvedWidth := resolveDimension props.Width availableWidth
    let width := if resolvedWidth > 0 then resolvedWidth else width
    let resolvedHeight := resolveDimension props.Height availableHeight
    let height := if resolvedHeight > 0 then resolvedHeight else height
    applyConstraints ⟨width, height⟩ props.MinWidth props.MinHeight props.MaxWidth props.MaxHeight
termination_by (sizeOf children, 1)

/-- The `for i, child := range children` loop of `measureBox`: measure
each child, accumulate the main-axis total (with `Gap` added for every
index `i > 0` when `Gap > 0`) and the cross-axis maximum. -/
def measureBoxChildren (props : BoxProps) (children : List Component)
    (availableWidth availableHeight : Int) (i : Nat) (acc : BoxAcc) : BoxAcc :=
  match children with
  | [] => acc
  | child :: rest =>
    let childSize := Component.Measure child availableWidth availableHeight
    let acc' :=
      match props.Direction with
      | .Row =>
        { acc with
            totalWidth := acc.totalWidth + childSize.Width
              + (if i > 0 ∧ props.Gap > 0 then props.Gap else 0),
            maxHeight := if childSize.Height > acc.maxHeight then childSize.Height else acc.maxHeight }
      | .Column =>
        { acc with
            totalHeight := acc.totalHeight + childSize.Height
              + (if i > 0 ∧ props.Gap > 0 then props.Gap else 0),
            maxWidth := if childSize.Width > acc.maxWidth then childSize.Width else acc.maxWidth }
    measureBoxChildren props rest availableWidth availableHeight (i + 1) acc'
termination_by (sizeOf children, 0)

end

/-- `LayoutEngine` (layout.go): terminal dimensions. -/
structure LayoutEngine where
  terminalWidth : Int
  terminalHeight : Int

/-- `LayoutTree` (layout.go): a component, its resolved layout, and its
positioned children. -/
inductive LayoutTree where
  | mk (component : Component) (layout : Layout) (children : List LayoutTree)

/-- The component of a LayoutTree node. -/
def LayoutTree.component : LayoutTree → Component
  | .mk c _ _ => c

/-- The resolved layout of a LayoutTree node. -/
def LayoutTree.layout : LayoutTree → Layout
  | .mk _ l _ => l

/-- The positioned children of a LayoutTree node. -/
def LayoutTree.children : LayoutTree → List LayoutTree
  | .mk _ _ ts => ts

/-- Replace the layout of a LayoutTree node (models the in-place
mutation of `child.Layout` fields in flex.go). -/
def LayoutTree.withLayout : LayoutTree → Layout → LayoutTree
  | .mk c _ ts, l => .mk c l ts

mutual

/-- `measureAndLayout` (layout.go): recursively measure and position a
component at `(x, y)` within the available extents. -/
def measureAndLayout (e : LayoutEngine) (component : Component)
    (availableWidth availableHeight x y : Int) : LayoutTree :=
  let margins : Int × Int :=
    match component with
    | .box props _ => (props.Margin.Left, props.Margin.Top)
    | _ => (0, 0)
  let adjustedX := x + margins.1
  let adjustedY := y + margins.2
  let size := component.Measure availableWidth availableHeight
  let layout : Layout := ⟨adjustedX, adjustedY, size.Width, size.Height⟩
  let childTrees : List LayoutTree :=
    match component with
    | .box props children =>
      if children.length > 0 then
        -- content origin: padding plus half the border size per side
        let startX := adjustedX + props.Padding.Left + ((borderSize props.Border).1).tdiv 2
        let startY := adjustedY + props.Padding.Top + ((borderSize props.Border).2).tdiv 2
        match props.Direction with
        | .Column => layoutColumn e props children availableWidth availableHeight startX startY
        | .Row => layoutRow e props children availableWidth availableHeight startX startY
      else []
    | _ => []
  .mk component layout childTrees
termination_by (sizeOf component, 1)

/-- The Column arm of `measureAndLayout`'s child loop: walk children
top-to-bottom accumulating `currentY`; `Gap` is added between (not
after) children when `Gap > 0`. -/
def layoutColumn (e : LayoutEngine) (props : BoxProps) (children : List Component)
    (availableWidth availableHeight childX currentY : Int) : List LayoutTree :=
  match children with
  | [] => []
  | child :: rest =>
    let childTree := measureAndLayout e child availableWidth availableHeight childX currentY
    let nextY := currentY + childTree.layout.Height
      + (if rest.isEmpty = false ∧ props.Gap > 0 then props.Gap else 0)
    childTree :: layoutColumn e props rest availableWidth availableHeight childX nextY
termination_by (sizeOf children, 0)

/-- The Row arm of `measureAndLayout`'s child loop: walk children
left-to-right accumulating `currentX`. -/
def layoutRow (e : LayoutEngine) (props : BoxProps) (children : List Component)
    (availableWidth availableHeight currentX childY : Int) : List LayoutTree :=
  match children with
  | [] => []
  | child :: rest =>
    let childTree := measureAndLayout e child availableWidth availableHeight currentX childY
    let nextX := currentX + childTree.layout.Width
      + (if rest.isEmpty = false ∧ props.Gap > 0 then props.Gap else 0)
    childTree :: layoutRow e props rest availableWidth availableHeight nextX childY
termination_by (sizeOf children, 0)

end

/-- `CalculateLayout` (layout.go): entry point, seeds the recursion with
the terminal size at origin (0, 0). -/
def CalculateLayout (e : LayoutEngine) (root : Component) : LayoutTree :=
  measureAndLayout e root e.terminalWidth e.terminalHeight 0 0

/-- Go's `int(x)` conversion of a float64: the fractional part is
discarded, i.e. truncation toward zero. -/
def goTrunc (q : ℚ) : Int :=
  if q < 0 then ⌈q⌉ else ⌊q⌋

/-- `FlexChild` (flex.go): a child component with flex properties. -/
structure FlexChild where
  component : Component
  size : Size
  FlexGrow : ℚ
  FlexShrink : ℚ

/-- `calculateFlexGrow` (flex.go): distribute extra space proportionally
to the flex-grow weights (all zeros when `extraSpace ≤ 0` or the total
weight is 0). -/
def calculateFlexGrow (children : List FlexChild) (extraSpace : Int) : List Int :=
  if extraSpace ≤ 0 then
    List.replicate children.length 0
  else
    let totalGrow : ℚ := (children.map (fun c => c.FlexGrow)).sum
    if totalGrow = 0 then
      List.replicate children.length 0
    else
      children.map (fun child => goTrunc ((extraSpace : ℚ) * child.FlexGrow / totalGrow))

/-- `calculateFlexShrink` (flex.go): the structural mirror of
`calculateFlexGrow` using the deficit and the flex-shrink weights. -/
def calculateFlexShrink (children : List FlexChild) (deficit : Int) : List Int :=
  if deficit ≤ 0 then
    List.replicate children.length 0
  else
    let totalShrink : ℚ := (children.map (fun c => c.FlexShrink)).sum
    if totalShrink = 0 then
      List.replicate children.length 0
    else
      children.map (fun child => goTrunc ((deficit : ℚ) * child.FlexShrink / totalShrink))

/-- `alignItems` (flex.go): align children on the cross axis.  Each
child's Layout is updated independently, so the in-place loop is a map. -/
def alignItems (children : List LayoutTree) (props : BoxProps) (crossSize : Int) :
    List LayoutTree :=
  children.map (fun child =>
    if props.Direction = .Column then
      match props.AlignItems with
      | .AlignStart => child
      | .AlignCenter =>
        child.withLayout { child.layout with X := (crossSize - child.layout.Width).tdiv 2 }
      | .AlignEnd =>
        child.withLayout { child.layout with X := crossSize - child.layout.Width }
      | .AlignStretch =>
        child.withLayout { child.layout with Width := crossSize }
    else
      match props.AlignItems with
      | .AlignStart => child
      | .AlignCenter =>
        child.withLayout { child.layout with Y := (crossSize - child.layout.Height).tdiv 2 }
      | .AlignEnd =>
        child.withLayout { child.layout with Y := crossSize - child.layout.Height }
      | .AlignStretch =>
        child.withLayout { child.layout with Height := crossSize })

/-- `getTotalHeight` (flex.go): last child's bottom minus first child's
top (0 for an empty list). -/
def getTotalHeight (children : List LayoutTree) : Int :=
  match children with
  | [] => 0
  | first :: rest =>
    let last := (first :: rest).getLast (List.cons_ne_nil first rest)
    last.layout.Y + last.layout.Height - first.layout.Y

/-- `getTotalWidth` (flex.go): last child's right edge minus first
child's left edge (0 for an empty list). -/
def getTotalWidth (children : List LayoutTree) : Int :=
  match children with
  | [] => 0
  | first :: rest =>
    let last := (first :: rest).getLast (List.cons_ne_nil first rest)
    last.layout.X + last.layout.Width - first.layout.X

/-- The `for i := 1; ...` loop of SpaceBetween in `justifyColumn`:
each child's Y is the (already updated) previous child's bottom plus
`space`. -/
def spaceBetweenColumn (space : Int) (prev : LayoutTree) :
    List LayoutTree → List LayoutTree
  | [] => []
  | c :: rest =>
    let c' := c.withLayout { c.layout with Y := prev.layout.Y + prev.layout.Height + space }
    c' :: spaceBetweenColumn space c' rest

/-- The SpaceAround loop of `justifyColumn`:
`child[i].Y = halfSpace + i*(child[i].Height + space)`. -/
def spaceAroundColumn (halfSpace space : Int) (i : Nat) :
    List LayoutTree → List LayoutTree
  | [] => []
  | c :: rest =>
    let c' := c.withLayout { c.layout with Y := halfSpace + (i : Int) * (c.layout.Height + space) }
    c' :: spaceAroundColumn halfSpace space (i + 1) rest

/-- The `for i := 1; ...` loop of SpaceBetween in `justifyRow`. -/
def spaceBetweenRow (space : Int) (prev : LayoutTree) :
    List LayoutTree → List LayoutTree
  | [] => []
  | c :: rest =>
    let c' := c.withLayout { c.layout with X := prev.layout.X + prev.layout.Width + space }
    c' :: spaceBetweenRow space c' rest

/-- The SpaceAround loop of `justifyRow`. -/
def spaceAroundRow (halfSpace space : Int) (i : Nat) :
    List LayoutTree → List LayoutTree
  | [] => []
  | c :: rest =>
    let c' := c.withLayout { c.layout with X := halfSpace + (i : Int) * (c.layout.Width + space) }
    c' :: spaceAroundRow halfSpace space (i + 1) rest

/-- `justifyColumn` (flex.go). -/
def justifyColumn (children : List LayoutTree) (props : BoxProps) (mainSize : Int) :
    List LayoutTree :=
  match props.JustifyContent with
  | .JustifyStart => children
  | .JustifyCenter =>
    let offset := (mainSize - getTotalHeight children).tdiv 2
    children.map (fun c => c.withLayout { c.layout with Y := c.layout.Y + offset })
  | .JustifyEnd =>
    let offset := mainSize - getTotalHeight children
    children.map (fun c => c.withLayout { c.layout with Y := c.layout.Y + offset })
  | .JustifySpaceBetween =>
    if children.length ≤ 1 then
      children
    else
      let space := (mainSize - getTotalHeight children).tdiv ((children.length : Int) - 1)
      match children with
      | [] => []
      | c0 :: rest => c0 :: spaceBetweenColumn space c0 rest
  | .JustifySpaceAround =>
    let space := (mainSize - getTotalHeight children).tdiv (children.length : Int)
    let halfSpace := space.tdiv 2
    spaceAroundColumn halfSpace space 0 children

/-- `justifyRow` (flex.go). -/
def justifyRow (children : List LayoutTree) (props : BoxProps) (mainSize : Int) :
    List LayoutTree :=
  match props.JustifyContent with
  | .JustifyStart => children
  | .JustifyCenter =>
    let offset := (mainSize - getTotalWidth children).tdiv 2
    children.map (fun c => c.withLayout { c.layout with X := c.layout.X + offset })
  | .JustifyEnd =>
    let offset := mainSize - getTotalWidth children
    children.map (fun c => c.withLayout { c.layout with X := c.layout.X + offset })
  | .JustifySpaceBetween =>
    if children.length ≤ 1 then
      children
    else
      let space := (mainSize - getTotalWidth children).tdiv ((children.length : Int) - 1)
      match children with
      | [] => []
      | c0 :: rest => c0 :: spaceBetweenRow space c0 rest
  | .JustifySpaceAround =>
    let space := (mainSize - getTotalWidth children).tdiv (children.length : Int)
    let halfSpace := space.tdiv 2
    spaceAroundRow halfSpace space 0 children

/-- `justifyContent` (flex.go): distribute children on the main axis;
returns immediately on an empty sibling list. -/
def justifyContent (children : List LayoutTree) (props : BoxProps) (mainSize : Int) :
    List LayoutTree :=
  if children.isEmpty then
    children
  else if props.Direction = .Column then
    justifyColumn children props mainSize
  else
    justifyRow children props mainSize

/-- Reference definition following the spec's words (§8): `Percent(p)`
resolves to `floor(a*p/100)`; `Fixed(n)` to `n`; `Auto` to 0. -/
def resolveDimensionSpec (dim : Dimension) (available : Int) : Int :=
  match dim with
  | .Fixed value => value
  | .Percent value => (available * value).fdiv 100
  | .Auto => 0

/-- Whether a component is a box (the `component.(*box)` type assertion
of layout.go). -/
def isBox : Component → Bool
  | .box _ _ => true
  | _ => false

/-- Every node of a LayoutTree whose component is not a box has no
children. -/
def nonBoxLeaves : LayoutTree → Bool
  | .mk c _ ts =>
    (isBox c || ts.isEmpty) && ts.attach.all (fun t => nonBoxLeaves t.1)
termination_by t => sizeOf t
decreasing_by
  have := List.sizeOf_lt_of_mem t.2
  simp only [LayoutTree.mk.sizeOf_spec]
  omega

/-- The main-axis layout data of a node: (Y, Height) for Column,
(X, Width) for Row. -/
def mainAxisData (d : Direction) (t : LayoutTree) : Int × Int :=
  match d with
  | .Column => (t.layout.Y, t.layout.Height)
  | .Row => (t.layout.X, t.layout.Width)

/-- The effective gap added before each child at index `i > 0` in
`measureBox`'s loop: `Gap` when positive, otherwise nothing. -/
def gapEff (props : BoxProps) : Int :=
  if props.Gap > 0 then props.Gap else 0

/-- TextProps with wrap mode Word, other fields at their zero values. -/
def wrapWordTP : TextProps :=
  { TextProps.zero with Wrap := .WrapWord }

/-- A text child whose measured width is negative with a negative
available width: content "ab" with wrap Word. -/
def c1cexChild : Component :=
  .text ['a', 'b'] wrapWordTP

/-- A Column box with Gap 1 and otherwise zero props (for the C1
witness). -/
def w1props : BoxProps :=
  { BoxProps.zero with Gap := 1 }

/-- Two plain text children "a" and "bc" (for the C1 witness). -/
def w1children : List Component :=
  [.text ['a'] TextProps.zero, .text ['b', 'c'] TextProps.zero]

/-- The C3 scenario box: Column, Gap 2, padding and margin 1 all
around, single border. -/
def c3props : BoxProps :=
  { BoxProps.zero with
    Direction := .Column
    Gap := 2
    Padding := SpacingAll 1
    Margin := SpacingAll 1
    Border := .BorderSingle }

/-- The C3 scenario children: two 1×1 text children. -/
def c3children : List Component :=
  [.text ['a'] TextProps.zero, .text ['b'] TextProps.zero]

/-- A positioned 1×1 layout node at Y = 5 (for the C4 counterexample). -/
def c4tree : LayoutTree :=
  .mk (.text ['a'] TextProps.zero) ⟨0, 5, 1, 1⟩ []

/-- Column box props with JustifyContent SpaceAround (for C4). -/
def c4propsAround : BoxProps :=
  { BoxProps.zero with JustifyContent := .JustifySpaceAround }

/-- A flex child with the given grow and shrink weight (for C5). -/
def flexChildW (g : ℚ) : FlexChild :=
  ⟨.text [] TextProps.zero, ⟨0, 0⟩, g, g⟩

/-- Flex children with weights -1 and 3 (C5 counterexample). -/
def c5cexChildren : List FlexChild :=
  [flexChildW (-1), flexChildW 3]

/-- Flex children with weights 2 and 1 (C5 witness). -/
def c5wChildren : List FlexChild :=
  [flexChildW 2, flexChildW 1]

/-- A Row box with Gap 3 and no padding, margin or border (for C8). -/
def c8props : BoxProps :=
  { BoxProps.zero with Direction := .Row, Gap := 3 }

/-! ## Helper lemmas -/

theorem LayoutTree.withLayout_layout (t : LayoutTree) (l : Layout) :
    (t.withLayout l).layout = l := by
  cases t
  rfl

theorem nonBoxLeaves_mk (c : Component) (l : Layout) (ts : List LayoutTree) :
    nonBoxLeaves (.mk c l ts)
      = ((isBox c || ts.isEmpty) && ts.all (fun t => nonBoxLeaves t)) := by
  rw [nonBoxLeaves]
  congr 1
  rw [Bool.eq_iff_iff, List.all_eq_true, List.all_eq_true]
  constructor
  · intro h t ht
    exact h ⟨t, ht⟩ (List.mem_attach ts ⟨t, ht⟩)
  · intro h t _
    exact h t.1 t.2

/-! ## C7: an empty box measures to Size{0,0} -/

/-- C7: for every BoxProps and any available extents, `measureBox` with
no children returns Size{0,0}; no spacing, border, explicit dimension or
min/max clamp is applied to an empty box. -/
theorem measureBox_empty (props : BoxProps) (availableWidth availableHeight : Int) :
    measureBox props [] availableWidth availableHeight = ⟨0, 0⟩ := by
  rw [measureBox]

/-! ## C6: resolveDimension -/

/-- C6 counterexample: the claim says `Percent(p)` resolves to
`floor(a*p/100)` for any integer `a` including negative ones, but Go's
integer division truncates toward zero: at `a = -1`, `p = 50` the code
returns 0 while the floor is -1. -/
theorem resolveDimension_floor_counterexample :
    resolveDimension (.Percent 50) (-1) = 0 ∧
    resolveDimensionSpec (.Percent 50) (-1) = -1 ∧
    resolveDimension (.Percent 50) (-1) ≠ resolveDimensionSpec (.Percent 50) (-1) := by
  refine ⟨by decide, by decide, by decide⟩

/-- C6 amended: `Fixed(n)` resolves to `n`, `Auto` to 0, and `Percent(p)`
to the quotient `a*p/100` truncated toward zero (which equals
`floor(a*p/100)` whenever `a*p ≥ 0`); in particular `Percent(0)` resolves
to 0 and `Percent(100)` resolves to `a`. -/
theorem resolveDimension_amended (n p a : Int) :
    resolveDimension (.Fixed n) a = n ∧
    resolveDimension .Auto a = 0 ∧
    resolveDimension (.Percent p) a = (a * p).tdiv 100 ∧
    resolveDimension (.Percent 0) a = 0 ∧
    resolveDimension (.Percent 100) a = a := by
  refine ⟨rfl, rfl, rfl, ?_, ?_⟩
  · simp [resolveDimension]
  · simp [resolveDimension]

/-! ## C2: intrinsic text measurement -/

/-- C2 (code bug): `measureText` behaves exactly as the claim states
(splits on newlines, rune-count widths), but the text component's own
`Measure` — the measurer the layout engine invokes — uses the byte length
of the whole content and never splits on newlines.  At content "a\né"
(3 runes, 4 UTF-8 bytes, 2 lines) with wrap None the component returns
{Width: 4, Height: 1} where the claim requires {Width: 1, Height: 2}. -/
theorem textMeasure_bug :
    measureText ['a', '\n', 'é'] .WrapNone 100 = ⟨1, 2⟩ ∧
    (Component.text ['a', '\n', 'é'] TextProps.zero).Measure 100 100 = ⟨4, 1⟩ ∧
    (Component.text ['a', '\n', 'é'] TextProps.zero).Measure 100 100
      ≠ measureText ['a', '\n', 'é'] .WrapNone 100 := by
  rw [Component.Measure]
  refine ⟨by decide, by decide, by decide⟩

/-! ## C10: alignItems never modifies main-axis fields -/

/-- C10: for every child list, every AlignItems value and every cross
size, `alignItems` leaves the main-axis fields unchanged: (Y, Height)
of every child for Column direction, (X, Width) for Row. -/
theorem alignItems_preserves_main_axis (children : List LayoutTree)
    (props : BoxProps) (crossSize : Int) :
    (alignItems children props crossSize).map (mainAxisData props.Direction)
      = children.map (mainAxisData props.Direction) := by
  unfold alignItems
  rw [List.map_map]
  apply List.map_congr_left
  intro child _
  rcases hd : props.Direction <;> rcases props.AlignItems <;>
    simp [mainAxisData, hd, LayoutTree.withLayout_layout, Function.comp]

/-! ## C1: the box measurement law -/

theorem if_gt_eq_max (m w : Int) : (if w > m then w else m) = max m w := by
  split <;> omega

theorem measureBoxChildren_column (props : BoxProps) (hdir : props.Direction = .Column)
    (availableWidth availableHeight : Int) :
    ∀ (cs : List Component) (i : Nat) (acc : BoxAcc), 0 < i →
      measureBoxChildren props cs availableWidth availableHeight i acc =
        { acc with
          totalHeight := acc.totalHeight
            + (cs.map (fun c => (c.Measure availableWidth availableHeight).Height)).sum
            + gapEff props * cs.length,
          maxWidth := (cs.map (fun c => (c.Measure availableWidth availableHeight).Width)).foldl
            max acc.maxWidth } := by
  intro cs
  induction cs with
  | nil =>
    intro i acc _
    rw [measureBoxChildren]
    simp
  | cons c rest ih =>
    intro i acc hi
    rw [measureBoxChildren, hdir]
    simp only
    rw [ih (i + 1) _ (Nat.succ_pos i)]
    simp only [List.map_cons, List.sum_cons, List.foldl_cons, List.length_cons,
      BoxAcc.mk.injEq, if_gt_eq_max]
    refine ⟨by trivial, ?_, by trivial, by trivial⟩
    by_cases hg : props.Gap > 0
    · rw [gapEff, if_pos hg, if_pos ⟨hi, hg⟩]
      push_cast
      ring
    · rw [gapEff, if_neg hg, if_neg (fun h => hg h.2)]
      push_cast
      ring

theorem measureBoxChildren_row (props : BoxProps) (hdir : props.Direction = .Row)
    (availableWidth availableHeight : Int) :
    ∀ (cs : List Component) (i : Nat) (acc : BoxAcc), 0 < i →
      measureBoxChildren props cs availableWidth availableHeight i acc =
        { acc with
          totalWidth := acc.totalWidth
            + (cs.map (fun c => (c.Measure availableWidth availableHeight).Width)).sum
            + gapEff props * cs.length,
          maxHeight := (cs.map (fun c => (c.Measure availableWidth availableHeight).Height)).foldl
            max acc.maxHeight } := by
  intro cs
  induction cs with
  | nil =>
    intro i acc _
    rw [measureBoxChildren]
    simp
  | cons c rest ih =>
    intro i acc hi
    rw [measureBoxChildren, hdir]
    simp only
    rw [ih (i + 1) _ (Nat.succ_pos i)]
    simp only [List.map_cons, List.sum_cons, List.foldl_cons, List.length_cons,
      BoxAcc.mk.injEq, if_gt_eq_max]
    refine ⟨?_, by trivial, by trivial, by trivial⟩
    by_cases hg : props.Gap > 0
    · rw [gapEff, if_pos hg, if_pos ⟨hi, hg⟩]
      push_cast
      ring
    · rw [gapEff, if_neg hg, if_neg (fun h => hg h.2)]
      push_cast
      ring

theorem applyConstraints_unset (size : Size) :
    applyConstraints size 0 0 0 0 = size := by
  simp [applyConstraints]

/-- C1 counterexample: with a negative available width, a WrapWord text
child measures to a negative width; `measureBox`'s cross-axis maximum
starts from 0, so the box's width is 0 where the claim's
"maximum child width" (plus zero spacing) is -1. -/
theorem measureBox_c1_counterexample :
    (c1cexChild.Measure (-1) 5).Width
        + spacingWidth BoxProps.zero.Padding + spacingWidth BoxProps.zero.Margin
        + (borderSize BoxProps.zero.Border).1 = -1 ∧
    measureBox BoxProps.zero [c1cexChild] (-1) 5 = ⟨0, 0⟩ ∧
    (0 : Int) ≠ -1 := by
  refine ⟨?_, ?_, by decide⟩
  · simp only [c1cexChild, Component.Measure]
    decide
  · simp only [c1cexChild]
    rw [measureBox, measureBoxChildren, measureBoxChildren, Component.Measure]
    decide

/-- C1 amended: for every box with at least one child, gap ≥ 0, Width
and Height dimensions resolving to ≤ 0, and min/max constraints all
zero, `measureBox` with Direction Column returns Height equal to the sum
of the children's measured heights plus gap·(n−1) plus vertical padding,
margin and border size, and Width equal to the maximum of 0 and the
children's measured widths (the fold starts at 0, so negative child
widths are ignored) plus horizontal padding, margin and border size; for
Direction Row the same law holds with width and height swapped. -/
theorem measureBox_amended (props : BoxProps) (children : List Component)
    (availableWidth availableHeight : Int)
    (hne : children ≠ [])
    (hgap : 0 ≤ props.Gap)
    (hw : resolveDimension props.Width availableWidth ≤ 0)
    (hh : resolveDimension props.Height availableHeight ≤ 0)
    (hminw : props.MinWidth = 0) (hminh : props.MinHeight = 0)
    (hmaxw : props.MaxWidth = 0) (hmaxh : props.MaxHeight = 0) :
    measureBox props children availableWidth availableHeight =
      match props.Direction with
      | .Column =>
        ⟨(children.map (fun c => (c.Measure availableWidth availableHeight).Width)).foldl max 0
            + spacingWidth props.Padding + spacingWidth props.Margin
            + (borderSize props.Border).1,
          (children.map (fun c => (c.Measure availableWidth availableHeight).Height)).sum
            + props.Gap * ((children.length : Int) - 1)
            + spacingHeight props.Padding + spacingHeight props.Margin
            + (borderSize props.Border).2⟩
      | .Row =>
        ⟨(children.map (fun c => (c.Measure availableWidth availableHeight).Width)).sum
            + props.Gap * ((children.length : Int) - 1)
            + spacingWidth props.Padding + spacingWidth props.Margin
            + (borderSize props.Border).1,
          (children.map (fun c => (c.Measure availableWidth availableHeight).Height)).foldl max 0
            + spacingHeight props.Padding + spacingHeight props.Margin
            + (borderSize props.Border).2⟩ := by
  obtain ⟨c0, rest, rfl⟩ : ∃ c0 rest, children = c0 :: rest := by
    cases children with
    | nil => exact absurd rfl hne
    | cons c0 rest => exact ⟨c0, rest, rfl⟩
  have hgapeff : gapEff props * (rest.length : Int) = props.Gap * (rest.length : Int) := by
    rw [gapEff]
    rcases lt_or_eq_of_le hgap with h | h
    · rw [if_pos h]
    · rw [if_neg (by omega), ← h]
  rw [measureBox, measureBoxChildren]
  rcases hdir : props.Direction with _ | _
  · -- Column
    simp only [hdir, if_neg (by omega : ¬((0 : Nat) > 0 ∧ props.Gap > 0)), if_gt_eq_max]
    rw [measureBoxChildren_column props hdir _ _ rest 1 _ Nat.one_pos]
    simp only [List.map_cons, List.sum_cons, List.foldl_cons, List.length_cons,
      if_neg (not_lt_of_le hw), if_neg (not_lt_of_le hh), hminw, hminh, hmaxw, hmaxh,
      applyConstraints_unset]
    rw [Size.mk.injEq]
    constructor
    · rfl
    · rw [hgapeff]
      push_cast
      ring
  · -- Row
    simp only [hdir, if_neg (by omega : ¬((0 : Nat) > 0 ∧ props.Gap > 0)), if_gt_eq_max]
    rw [measureBoxChildren_row props hdir _ _ rest 1 _ Nat.one_pos]
    simp only [List.map_cons, List.sum_cons, List.foldl_cons, List.length_cons,
      if_neg (not_lt_of_le hw), if_neg (not_lt_of_le hh), hminw, hminh, hmaxw, hmaxh,
      applyConstraints_unset]
    rw [Size.mk.injEq]
    constructor
    · rw [hgapeff]
      push_cast
      ring
    · rfl

/-- C1 witness: a Column box with Gap 1 and two 1-line text children of
widths 1 and 2 measures, per `measureBox_amended`, to width 2 and
height 3. -/
theorem measureBox_amended_witness :
    measureBox w1props w1children 80 24 = ⟨2, 3⟩ := by
  rw [measureBox_amended w1props w1children 80 24 (by simp [w1children]) (by decide)
    (by decide) (by decide) (by decide) (by decide) (by decide) (by decide)]
  simp only [w1children, List.map_cons, List.map_nil, Component.Measure]
  decide

/-! ## C3: the Column box scenario -/

/-- C3 counterexample: the claimed width 8 double-counts the two
children's widths on the cross axis; the code takes their maximum. -/
theorem measureBox_c3_counterexample :
    measureBox c3props c3children 80 24 ≠ ⟨8, 10⟩ := by
  simp only [c3props, c3children]
  rw [measureBox, measureBoxChildren, measureBoxChildren, measureBoxChildren,
    Component.Measure, Component.Measure]
  decide

/-- C3 amended: the Column box with Gap 2, padding 1, margin 1 and a
single border wrapping two 1×1 text children measures to width
`max(1,1) + 2 + 2 + 2 = 7` (the cross axis takes the maximum child
width, not their sum) and height `1+1+2+2+2+2 = 10`. -/
theorem measureBox_c3_amended :
    measureBox c3props c3children 80 24 = ⟨7, 10⟩ := by
  simp only [c3props, c3children]
  rw [measureBox, measureBoxChildren, measureBoxChildren, measureBoxChildren,
    Component.Measure, Component.Measure]
  decide

/-! ## C4: justifyContent on small sibling lists -/

/-- C4 counterexample: SpaceAround with exactly one child is NOT a
no-op: a child at Y = 5 with height 1 in a Column box justified with
mainSize 1 is moved to Y = 0. -/
theorem justifyContent_c4_counterexample :
    (justifyContent [c4tree] c4propsAround 1).map (fun t => t.layout.Y) = [0] ∧
    [c4tree].map (fun t => t.layout.Y) = [5] ∧
    ((0 : Int) ≠ 5) := by
  refine ⟨by decide, by decide, by decide⟩

/-- C4 amended: `justifyContent` on an empty sibling list is a no-op,
and so is SpaceBetween on a single child; but SpaceAround with exactly
one child re-centers it, setting its main-axis coordinate to
`(mainSize − extent) / 2` (Go truncating division), for both
directions. -/
theorem justifyContent_small_amended (t : LayoutTree) (props : BoxProps) (mainSize : Int) :
    justifyContent [] props mainSize = [] ∧
    (props.JustifyContent = .JustifySpaceBetween →
      justifyContent [t] props mainSize = [t]) ∧
    (props.JustifyContent = .JustifySpaceAround → props.Direction = .Column →
      justifyContent [t] props mainSize
        = [t.withLayout { t.layout with Y := (mainSize - t.layout.Height).tdiv 2 }]) ∧
    (props.JustifyContent = .JustifySpaceAround → props.Direction = .Row →
      justifyContent [t] props mainSize
        = [t.withLayout { t.layout with X := (mainSize - t.layout.Width).tdiv 2 }]) := by
  refine ⟨by simp [justifyContent], ?_, ?_, ?_⟩
  · intro hj
    rcases hdir : props.Direction with _ | _ <;>
      simp [justifyContent, justifyColumn, justifyRow, hj, hdir]
  · intro hj hdir
    simp [justifyContent, justifyColumn, hj, hdir, getTotalHeight, spaceAroundColumn,
      List.getLast, add_sub_cancel_left, Int.tdiv_one]
  · intro hj hdir
    simp [justifyContent, justifyRow, hj, hdir, getTotalWidth, spaceAroundRow,
      List.getLast, add_sub_cancel_left, Int.tdiv_one]

/-- C4 witness: the single child at Y = 5 (height 1) under SpaceAround
in a Column box with mainSize 1 is repositioned to Y = 0, per
`justifyContent_small_amended`. -/
theorem justifyContent_small_amended_witness :
    justifyContent [c4tree] c4propsAround 1
      = [.mk (.text ['a'] TextProps.zero) ⟨0, 0, 1, 1⟩ []] := by
  have h := (justifyContent_small_amended c4tree c4propsAround 1).2.2.1 rfl rfl
  rw [h]
  rfl

/-! ## C5: flex distribution -/

theorem goTrunc_eq_floor_of_nonneg (q : ℚ) (h : 0 ≤ q) : goTrunc q = ⌊q⌋ := by
  rw [goTrunc, if_neg (not_lt.mpr h)]

/-- C5 counterexample: with a negative grow weight the claimed floor
formula fails: weights (-1, 3) and extra space 1 give `int(-0.5) = 0`
(Go truncates toward zero) where `floor(-0.5) = -1`. -/
theorem calculateFlexGrow_c5_counterexample :
    calculateFlexGrow c5cexChildren 1 = [0, 1] ∧
    ⌊(1 : ℚ) * (-1) / ((-1) + 3)⌋ = -1 ∧
    ((0 : Int) ≠ -1) := by
  refine ⟨?_, by norm_num, by decide⟩
  simp only [calculateFlexGrow, c5cexChildren, flexChildW, List.map_cons, List.map_nil,
    List.sum_cons, List.sum_nil, goTrunc]
  norm_num

/-- C5 amended: the all-zero guards hold unconditionally; when the
amount is positive, the total weight is nonzero, and every weight is
NONNEGATIVE (forced by the counterexample: Go's `int(·)` truncates
toward zero, which only coincides with floor on nonnegative values),
each result is `floor(amount * weight / totalWeight)` and the results
sum to at most the amount.  The same holds for `calculateFlexShrink`. -/
theorem flexDistribution_amended (children : List FlexChild) (amount : Int)
    (hg : ∀ c ∈ children, 0 ≤ c.FlexGrow)
    (hs : ∀ c ∈ children, 0 ≤ c.FlexShrink) :
    ((amount ≤ 0 ∨ (children.map (fun c => c.FlexGrow)).sum = 0) →
      calculateFlexGrow children amount = List.replicate children.length 0) ∧
    ((amount ≤ 0 ∨ (children.map (fun c => c.FlexShrink)).sum = 0) →
      calculateFlexShrink children amount = List.replicate children.length 0) ∧
    (0 < amount → (children.map (fun c => c.FlexGrow)).sum ≠ 0 →
      calculateFlexGrow children amount
        = children.map (fun c =>
            ⌊(amount : ℚ) * c.FlexGrow / (children.map (fun c => c.FlexGrow)).sum⌋) ∧
      (calculateFlexGrow children amount).sum ≤ amount) ∧
    (0 < amount → (children.map (fun c => c.FlexShrink)).sum ≠ 0 →
      calculateFlexShrink children amount
        = children.map (fun c =>
            ⌊(amount : ℚ) * c.FlexShrink / (children.map (fun c => c.FlexShrink)).sum⌋) ∧
      (calculateFlexShrink children amount).sum ≤ amount) := by
  have main : ∀ (w : FlexChild → ℚ), (∀ c ∈ children, 0 ≤ w c) →
      0 < amount → (children.map w).sum ≠ 0 →
      (children.map (fun child => goTrunc ((amount : ℚ) * w child / (children.map w).sum))
        = children.map (fun c => ⌊(amount : ℚ) * w c / (children.map w).sum⌋)) ∧
      ((children.map (fun child => goTrunc ((amount : ℚ) * w child / (children.map w).sum))).sum
        ≤ amount) := by
    intro w hw ha hsum
    have hW : (0 : ℚ) < (children.map w).sum :=
      lt_of_le_of_ne (List.sum_nonneg (by
        intro x hx
        obtain ⟨c, hc, rfl⟩ := List.mem_map.mp hx
        exact hw c hc)) (Ne.symm hsum)
    have hterm : ∀ c ∈ children, (0 : ℚ) ≤ (amount : ℚ) * w c / (children.map w).sum := by
      intro c hc
      apply div_nonneg (mul_nonneg (by exact_mod_cast ha.le) (hw c hc)) hW.le
    have heq : children.map (fun child => goTrunc ((amount : ℚ) * w child / (children.map w).sum))
        = children.map (fun c => ⌊(amount : ℚ) * w c / (children.map w).sum⌋) :=
      List.map_congr_left fun c hc => goTrunc_eq_floor_of_nonneg _ (hterm c hc)
    refine ⟨heq, ?_⟩
    rw [heq]
    have hcast : (((children.map (fun c => ⌊(amount : ℚ) * w c / (children.map w).sum⌋)).sum : Int) : ℚ)
        = (children.map (fun c => (⌊(amount : ℚ) * w c / (children.map w).sum⌋ : ℚ))).sum := by
      rw [Int.cast_list_sum, List.map_map]
      rfl
    have hle : (children.map (fun c => (⌊(amount : ℚ) * w c / (children.map w).sum⌋ : ℚ))).sum
        ≤ (children.map (fun c => (amount : ℚ) * w c / (children.map w).sum)).sum :=
      List.sum_le_sum fun c _ => Int.floor_le _
    have hsum_eq : (children.map (fun c => (amount : ℚ) * w c / (children.map w).sum)).sum
        = (amount : ℚ) := by
      have : (children.map (fun c => (amount : ℚ) * w c / (children.map w).sum))
          = children.map (fun c => ((amount : ℚ) / (children.map w).sum) * w c) :=
        List.map_congr_left fun c _ => by ring
      rw [this, List.sum_map_mul_left, div_mul_cancel₀ _ hsum]
    have : (((children.map (fun c => ⌊(amount : ℚ) * w c / (children.map w).sum⌋)).sum : Int) : ℚ)
        ≤ (amount : ℚ) := by
      rw [hcast]
      exact hle.trans (le_of_eq hsum_eq)
    exact_mod_cast this
  refine ⟨?_, ?_, ?_, ?_⟩
  · rintro (h | h)
    · rw [calculateFlexGrow, if_pos h]
    · rw [calculateFlexGrow]
      split
      · rfl
      · rw [if_pos h]
  · rintro (h | h)
    · rw [calculateFlexShrink, if_pos h]
    · rw [calculateFlexShrink]
      split
      · rfl
      · rw [if_pos h]
  · intro ha hsum
    have h := main (fun c => c.FlexGrow) hg ha hsum
    rw [calculateFlexGrow, if_neg (not_le.mpr ha), if_neg hsum]
    exact h
  · intro ha hsum
    have h := main (fun c => c.FlexShrink) hs ha hsum
    rw [calculateFlexShrink, if_neg (not_le.mpr ha), if_neg hsum]
    exact h

/-- C5 witness: weights (2, 1) with extra space 5 give
`[floor(10/3), floor(5/3)] = [3, 1]`, summing to 4 ≤ 5. -/
theorem flexDistribution_amended_witness :
    calculateFlexGrow c5wChildren 5 = [3, 1] ∧ (calculateFlexGrow c5wChildren 5).sum ≤ 5 := by
  have h := (flexDistribution_amended c5wChildren 5
    (by intro c hc; fin_cases hc <;> norm_num [flexChildW])
    (by intro c hc; fin_cases hc <;> norm_num [flexChildW])).2.2.1
    (by norm_num)
    (by simp [c5wChildren, flexChildW]; norm_num)
  obtain ⟨heq, hle⟩ := h
  refine ⟨?_, hle⟩
  rw [heq]
  simp only [c5wChildren, flexChildW, List.map_cons, List.map_nil, List.sum_cons, List.sum_nil]
  norm_num

/-! ## C8: Row gap positioning -/

/-- C8: in a Row box with Gap 3 and no padding, margin or border, the
first text child sits at X = 0 with its measured width, and the second
child's X equals the first child's resolved width plus 3. -/
theorem layout_row_second_child_x (s1 s2 : List Char) (p1 p2 : TextProps) (tw th : Int) :
    ((CalculateLayout ⟨tw, th⟩ (.box c8props [.text s1 p1, .text s2 p2])).children.map
        (fun t => t.layout.X))
      = [0, ((Component.text s1 p1).Measure tw th).Width + 3] ∧
    ((CalculateLayout ⟨tw, th⟩ (.box c8props [.text s1 p1, .text s2 p2])).children.map
        (fun t => t.layout.Width))
      = [((Component.text s1 p1).Measure tw th).Width,
          ((Component.text s2 p2).Measure tw th).Width] := by
  simp only [CalculateLayout, measureAndLayout, layoutRow, c8props, BoxProps.zero, borderSize,
    LayoutTree.layout, LayoutTree.children, List.map_cons, List.map_nil]
  norm_num

/-! ## C9: only box nodes keep children -/

theorem mem_layoutColumn (e : LayoutEngine) (props : BoxProps)
    (availableWidth availableHeight childX : Int) :
    ∀ (cs : List Component) (currentY : Int) (t : LayoutTree),
      t ∈ layoutColumn e props cs availableWidth availableHeight childX currentY →
      ∃ c ∈ cs, ∃ y, t = measureAndLayout e c availableWidth availableHeight childX y := by
  intro cs
  induction cs with
  | nil =>
    intro currentY t ht
    rw [layoutColumn] at ht
    simp at ht
  | cons c rest ih =>
    intro currentY t ht
    rw [layoutColumn] at ht
    rcases List.mem_cons.mp ht with rfl | ht
    · exact ⟨c, List.mem_cons_self c rest, currentY, rfl⟩
    · obtain ⟨c', hc', y, rfl⟩ := ih _ t ht
      exact ⟨c', List.mem_cons_of_mem c hc', y, rfl⟩

theorem mem_layoutRow (e : LayoutEngine) (props : BoxProps)
    (availableWidth availableHeight childY : Int) :
    ∀ (cs : List Component) (currentX : Int) (t : LayoutTree),
      t ∈ layoutRow e props cs availableWidth availableHeight currentX childY →
      ∃ c ∈ cs, ∃ x, t = measureAndLayout e c availableWidth availableHeight x childY := by
  intro cs
  induction cs with
  | nil =>
    intro currentX t ht
    rw [layoutRow] at ht
    simp at ht
  | cons c rest ih =>
    intro currentX t ht
    rw [layoutRow] at ht
    rcases List.mem_cons.mp ht with rfl | ht
    · exact ⟨c, List.mem_cons_self c rest, currentX, rfl⟩
    · obtain ⟨c', hc', x, rfl⟩ := ih _ t ht
      exact ⟨c', List.mem_cons_of_mem c hc', x, rfl⟩

theorem measureAndLayout_nonBoxLeaves (e : LayoutEngine) :
    ∀ (c : Component) (availableWidth availableHeight x y : Int),
      nonBoxLeaves (measureAndLayout e c availableWidth availableHeight x y) = true := by
  suffices key : ∀ (n : Nat) (c : Component), sizeOf c ≤ n →
      ∀ (availableWidth availableHeight x y : Int),
        nonBoxLeaves (measureAndLayout e c availableWidth availableHeight x y) = true by
    intro c aw ah x y
    exact key (sizeOf c) c le_rfl aw ah x y
  intro n
  induction n with
  | zero =>
    intro c hc
    exfalso
    cases c <;> simp at hc
  | succ n ih =>
    intro c hc availableWidth availableHeight x y
    match c with
    | .text content props =>
      rw [measureAndLayout.eq_def]
      simp [nonBoxLeaves_mk]
    | .custom m cs k =>
      rw [measureAndLayout.eq_def]
      simp [nonBoxLeaves_mk]
    | .box props children =>
      rw [measureAndLayout.eq_def]
      simp only [nonBoxLeaves_mk, isBox, Bool.true_or, Bool.true_and, List.all_eq_true]
      intro t ht
      have hchild : ∃ c' ∈ children, ∃ x' y',
          t = measureAndLayout e c' availableWidth availableHeight x' y' := by
        by_cases hlen : children.length > 0
        · rw [if_pos hlen] at ht
          rcases hdir : props.Direction with _ | _
          · rw [hdir] at ht
            obtain ⟨c', hc', y', rfl⟩ := mem_layoutColumn e props _ _ _ children _ t ht
            exact ⟨c', hc', _, y', rfl⟩
          · rw [hdir] at ht
            obtain ⟨c', hc', x', rfl⟩ := mem_layoutRow e props _ _ _ children _ t ht
            exact ⟨c', hc', x', _, rfl⟩
        · rw [if_neg hlen] at ht
          simp at ht
      obtain ⟨c', hc', x', y', rfl⟩ := hchild
      have hsz : sizeOf c' ≤ n := by
        have h1 := List.sizeOf_lt_of_mem hc'
        have h2 : sizeOf (Component.box props children) ≤ n + 1 := hc
        simp only [Component.box.sizeOf_spec] at h2
        have h3 : 1 ≤ sizeOf props := by
          cases props
          simp
          omega
        omega
      exact ih c' hsz _ _ _ _

/-- C9: every node of the LayoutTree returned by `CalculateLayout` whose
component is not a box has an empty children list — the positioning pass
recurses only into children of box components. -/
theorem CalculateLayout_nonBox_children_empty (e : LayoutEngine) (root : Component) :
    nonBoxLeaves (CalculateLayout e root) = true := by
  rw [CalculateLayout]
  exact measureAndLayout_nonBoxLeaves e root e.terminalWidth e.terminalHeight 0 0

end RuneTUI
